import Mathlib

/-!
Shallow embedding of the statistics-and-spatial-aggregation core of the
`redlist_evaluation_tool` repository (`src/app.py`, `src/models.py`).

Modelling conventions:
* PostgreSQL/PostGIS and SQLAlchemy are the observation store; their queries
  are translated into pure functions over explicit in-memory table states.
* Geometries are kept abstract as their stored WKT strings; the external
  PostGIS operators `ST_ConvexHull` / `ST_Area` and the shapely `shape`
  parser are passed in as function parameters (they are external
  collaborators, not code of this repository).
* Machine integers from the database (`id`, `project_id`) are modelled as
  `Nat` (Flask's `<int:...>` converter and PostgreSQL serial columns are
  non-negative); property values parsed by `CAST(.. AS integer)` are `Int`.
* SQL `AVG` and `ST_Area` results are modelled as `Rat` (exact numeric).
* Fallible code paths (HTTP error responses, raised exceptions) are explicit
  response constructors.
-/

/-- JSON values stored in the `properties` JSONB column, restricted to the
shapes the verified claims exercise (strings, booleans, null). -/
inductive PValue
  | str (s : String)
  | bool (b : Bool)
  | null
deriving DecidableEq, Repr

/-- Association-list model of a JSONB object (python dict): keys unique,
assignment overwrites. -/
def Props := List (String × PValue)
deriving instance DecidableEq, Repr for Props

/-- Dictionary lookup `props[k]` / SQL `properties -> k`. -/
def propLookup (ps : Props) (k : String) : Option PValue :=
  (List.find? (fun p => p.1 == k) ps).map (fun p => p.2)

/-- Dictionary assignment `props[k] = v` / SQL `jsonb_set(properties, {k}, v)`. -/
def propSet (ps : Props) (k : String) (v : PValue) : Props :=
  (k, v) :: List.filter (fun p => p.1 != k) ps

/-- SQL `->> k` (astext): JSON string unquoted, booleans rendered, null and
absent key both give SQL NULL. -/
def pvText : Option PValue → Option String
  | none => none
  | some .null => none
  | some (.str s) => some s
  | some (.bool b) => some (if b then "true" else "false")

/-- Row of the `observations` table (`models.py`, class `Observation`). -/
structure Obs where
  id : Nat
  project_id : Nat
  dataset_id : String
  dataset_name : String
  dataset_url : String
  created_at : Nat
  excluded : Option Bool
  properties : Props
  geometry : Option String
deriving DecidableEq, Repr

/-- Row of the `convex_hulls` table (`models.py`, class `ConvexHull`). -/
structure HullRow where
  project_id : Nat
  geometry : String
  area_km2 : Rat
  calculated_at : Nat
deriving DecidableEq, Repr

/-- Row of the `grid_cells` table (`models.py`, class `GridCell`). -/
structure GridRow where
  project_id : Nat
  geom : String
deriving DecidableEq, Repr

/-- Database state: the four tables the verified claims touch.  Projects are
kept as their ids (name/description/parent_id are never read by the verified
operations); `nextId` models the serial primary key generator for
`observations`. -/
structure DB where
  projects : List Nat
  observations : List Obs
  hulls : List HullRow
  gridCells : List GridRow
  nextId : Nat
deriving DecidableEq, Repr

/-- Observations of one project: SQL `WHERE project_id = :project_id`. -/
def projObs (db : DB) (pid : Nat) : List Obs :=
  db.observations.filter (fun o => o.project_id == pid)

/-- Statistics summary cached by `get_dataset_stats` (`app.py` `result`
dict).  Summary fields not referenced by any verified claim
(uniqueLocalities, dateRange, recordBasisCounts, topSpecies, topObservers,
dataset metadata) are omitted; their queries are pure and cannot raise. -/
structure ICStats where
  min : Int
  max : Int
  sum : Int
  average : Rat
  count : Nat
deriving DecidableEq, Repr

/-- Cached/returned result of `get_dataset_stats`. -/
structure StatsResult where
  project_id : Nat
  totalRecords : Nat
  uniqueSpecies : Nat
  individualCountStats : Option ICStats
deriving DecidableEq, Repr

/-- Entry of `SimpleCache.cache`: key maps to (value, timestamp). -/
structure CacheEntry where
  key : String
  value : StatsResult
  timestamp : Nat
deriving DecidableEq, Repr

/-- TTL of `stats_cache` (`SimpleCache(ttl_seconds=300)`). -/
def ttlSeconds : Nat := 300

/-- Lookup an entry by key (python `key in self.cache`). -/
def cacheLookup (c : List CacheEntry) (k : String) : Option CacheEntry :=
  c.find? (fun e => e.key == k)

/-- Model of `SimpleCache.get`: fresh hit returns the value; an expired entry
is evicted and the call misses. -/
def cacheGet (c : List CacheEntry) (now : Nat) (k : String) :
    List CacheEntry × Option StatsResult :=
  match cacheLookup c k with
  | none => (c, none)
  | some e =>
    if now - e.timestamp < ttlSeconds then (c, some e.value)
    else (c.filter (fun e2 => e2.key != k), none)

/-- Model of `SimpleCache.set`: store (value, now) under the key. -/
def cacheSet (c : List CacheEntry) (now : Nat) (k : String) (v : StatsResult) :
    List CacheEntry :=
  ⟨k, v, now⟩ :: c.filter (fun e => e.key != k)

/-- Model of `SimpleCache.delete`. -/
def cacheDelete (c : List CacheEntry) (k : String) : List CacheEntry :=
  c.filter (fun e => e.key != k)

/-- Whether the cache currently holds an entry under the key. -/
def cacheHasKey (c : List CacheEntry) (k : String) : Bool :=
  (cacheLookup c k).isSome

/-- Cache key built by every stats-cache call site: `f"stats:{project_id}"`. -/
def statsKey (pid : Nat) : String :=
  "stats:" ++ Nat.repr pid

/-- Whole-system state: database plus the process-local stats cache and the
current clock (`datetime.utcnow()` as seconds). -/
structure Sys where
  db : DB
  cache : List CacheEntry
  now : Nat
deriving DecidableEq, Repr

/-- Digit-string value accumulator used by `pgParseInt?`; `none` for an empty
or non-digit character sequence. -/
def digitsVal? (cs : List Char) : Option Nat :=
  if cs.isEmpty then none
  else
    cs.foldl
      (fun acc c =>
        match acc with
        | none => none
        | some a => if c.isDigit then some (a * 10 + (c.toNat - 48)) else none)
      (some 0)

/-- Surrounding-whitespace removal on a character list (structural version
of string trimming, so that terms reduce definitionally). -/
def trimChars (cs : List Char) : List Char :=
  ((cs.dropWhile Char.isWhitespace).reverse.dropWhile Char.isWhitespace).reverse

deriving instance DecidableEq for Except

/-- Model of PostgreSQL `CAST(text AS integer)` input syntax: optional
surrounding whitespace, optional sign, one or more decimal digits; any other
input makes the cast raise (`none` here).  (int4 overflow is not modelled;
the verified claims use small values.) -/
def pgParseInt? (s : String) : Option Int :=
  match trimChars s.data with
  | '-' :: rest => (digitsVal? rest).map (fun n => -(n : Int))
  | '+' :: rest => (digitsVal? rest).map (fun n => (n : Int))
  | cs => (digitsVal? cs).map (fun n => (n : Int))

/-- Property path aggregated by `individualCountStats`. -/
def icPath : String := "unit.interpretations.individualCount"

/-- Property path counted by `uniqueSpecies`. -/
def speciesPath : String := "unit.linkings.taxon.scientificName"

/-- Model of the `individual_stats_raw` query of `get_dataset_stats`
(`app.py` lines 1111-1131): SQL `MIN/MAX/SUM/AVG/COUNT` over
`CAST(properties ->> path AS integer)` filtered to rows whose text value is
non-NULL.  A present value that does not parse as an integer makes the cast
raise, aborting the whole query (`Except.error`); rows with SQL NULL are
filtered out without touching the cast.  With zero qualifying rows the
aggregate row has count 0 and the endpoint leaves the field `None`. -/
def icStats (vs : List (Option String)) : Except String (Option ICStats) :=
  let present := vs.filterMap id
  if present.any (fun s => (pgParseInt? s).isNone) then
    .error "invalid input syntax for type integer"
  else
    match present.filterMap pgParseInt? with
    | [] => .ok none
    | x :: xs =>
      let sum := (x :: xs).foldl (· + ·) 0
      let cnt := (x :: xs).length
      .ok (some
        { min := xs.foldl min x
          max := xs.foldl max x
          sum := sum
          average := Rat.divInt sum (cnt : Int)
          count := cnt })

/-- Count of distinct non-NULL text values of a property path within a
project (the `unique_species` / `unique_localities` query shape). -/
def uniqueCount (db : DB) (pid : Nat) (path : String) : Nat :=
  (((projObs db pid).filterMap (fun o => pvText (propLookup o.properties path))).dedup).length

/-- Responses of the stats endpoint: 200 with a summary, 404, or 500 from a
raised exception. -/
inductive StatsResp
  | ok (r : StatsResult)
  | notFound (e : String)
  | err (e : String)
deriving DecidableEq, Repr

/-- Model of `get_dataset_stats` (`app.py` lines 1033-1222): cache probe,
project existence check, zero-observation check, aggregate computation,
cache fill.  The returned state threads any eviction done by the cache
probe. -/
def get_dataset_stats (pid : Nat) (s : Sys) : Sys × StatsResp :=
  let probed := cacheGet s.cache s.now (statsKey pid)
  match probed.2 with
  | some v => ({ s with cache := probed.1 }, .ok v)
  | none =>
    if s.db.projects.contains pid then
      let total := (projObs s.db pid).length
      if total == 0 then
        ({ s with cache := probed.1 }, .notFound "Project has no observations")
      else
        match icStats ((projObs s.db pid).map
            (fun o => pvText (propLookup o.properties icPath))) with
        | .error e => ({ s with cache := probed.1 }, .err e)
        | .ok ics =>
          let r : StatsResult :=
            { project_id := pid
              totalRecords := total
              uniqueSpecies := uniqueCount s.db pid speciesPath
              individualCountStats := ics }
          ({ s with cache := cacheSet probed.1 s.now (statsKey pid) r }, .ok r)
    else ({ s with cache := probed.1 }, .notFound "Project not found")

/-- Pagination block returned by `get_observations`. -/
structure PageInfo where
  rows : Nat
  total : Nat
  page : Nat
  per_page : Nat
  pages : Nat
deriving DecidableEq, Repr

/-- Model of `get_observations` (`app.py` lines 826-925): one SQL query with
`WHERE project_id = :pid ORDER BY id LIMIT :per_page OFFSET (page-1)*per_page`
and `COUNT(*) OVER()` as the total; when the page is empty the handler
returns `total = 0, pages = 0` without consulting the window count.
Callers pass `page ≥ 1` (a smaller page would make the SQL OFFSET negative
and raise, a path not modelled). -/
def get_observations (db : DB) (pid : Nat) (page perPage : Nat) : PageInfo :=
  let filtered := projObs db pid
  let pageRows := (filtered.drop ((page - 1) * perPage)).take perPage
  if pageRows.isEmpty then
    { rows := 0, total := 0, page := page, per_page := perPage, pages := 0 }
  else
    { rows := pageRows.length
      total := filtered.length
      page := page
      per_page := perPage
      pages := (filtered.length + perPage - 1) / perPage }

/-- Incoming GeoJSON feature as consumed by `save_observations` /
`upload_csv_to_project`: raw geometry (kept abstract as its serialized
form, parsed by the external shapely `shape`) plus a properties dict. -/
structure Feature where
  geometry : Option String
  properties : Props
deriving DecidableEq, Repr

/-- Parameters common to one batch insert: project, dataset metadata, and
the single `current_time` timestamp stamped on every row of the batch. -/
structure InsertCtx where
  project_id : Nat
  dataset_id : String
  dataset_name : String
  dataset_url : String
  created_at : Nat
deriving DecidableEq, Repr

/-- Conversion of one feature into an `observations` row dict (`app.py`
lines 538-553): `shape(feature['geometry']).wkt` may raise on a malformed
geometry (the external parser is the `parse` argument); a missing geometry
stores SQL NULL.  The `excluded` column is not in the dict, so the column
default `False` applies; the row id is assigned by the database
(placeholder 0 here, overwritten on insert). -/
def convertFeature (parse : String → Except String String) (ctx : InsertCtx)
    (f : Feature) : Except String Obs :=
  match f.geometry with
  | none =>
    .ok { id := 0, project_id := ctx.project_id, dataset_id := ctx.dataset_id
          dataset_name := ctx.dataset_name, dataset_url := ctx.dataset_url
          created_at := ctx.created_at, excluded := some false
          properties := f.properties, geometry := none }
  | some g =>
    match parse g with
    | .error e => .error e
    | .ok w =>
      .ok { id := 0, project_id := ctx.project_id, dataset_id := ctx.dataset_id
            dataset_name := ctx.dataset_name, dataset_url := ctx.dataset_url
            created_at := ctx.created_at, excluded := some false
            properties := f.properties, geometry := some ("SRID=4326;" ++ w) }

/-- Conversion of a feature list in order, raising at the first malformed
geometry (the python for-loop building `observations`). -/
def convFeatures (parse : String → Except String String) (ctx : InsertCtx) :
    List Feature → Except String (List Obs)
  | [] => .ok []
  | f :: fs =>
    match convertFeature parse ctx f with
    | .error e => .error e
    | .ok o =>
      match convFeatures parse ctx fs with
      | .error e => .error e
      | .ok os => .ok (o :: os)

/-- Serial-id assignment performed by the database on bulk insert:
consecutive ids starting at the serial counter. -/
def assignIds (start : Nat) : List Obs → List Obs
  | [] => []
  | o :: os => { o with id := start } :: assignIds (start + 1) os

/-- Committed bulk insert of prepared rows (`session.execute(insert(..));
session.commit()`). -/
def insertRows (db : DB) (rows : List Obs) : DB :=
  { db with
    observations := db.observations ++ assignIds db.nextId rows
    nextId := db.nextId + rows.length }

/-- Fixed batch size of both insert paths (`chunk_size = 1000`). -/
def chunkSize : Nat := 1000

/-- Chunked insert loop of `save_observations` (`app.py` lines 528-559),
structurally recursive on a fuel argument so that terms reduce: each chunk
of 1000 features is converted and committed independently; a conversion
failure raises, the surrounding handler rolls back only the uncommitted
chunk, and every previously committed chunk stays persisted.  Returns the
database after the committed chunks plus `some errorMessage` on failure.
The fuel never runs out when it starts at the feature-list length, since
each iteration drops at least one feature. -/
def saveChunksAux (parse : String → Except String String) (ctx : InsertCtx) :
    Nat → List Feature → DB → DB × Option String
  | _, [], db => (db, none)
  | 0, _ :: _, db => (db, none)
  | fuel + 1, f :: fs, db =>
    match convFeatures parse ctx ((f :: fs).take chunkSize) with
    | .error e => (db, some e)
    | .ok rows => saveChunksAux parse ctx fuel ((f :: fs).drop chunkSize) (insertRows db rows)

/-- Chunk loop entry point: the fuel is the feature count. -/
def saveChunks (parse : String → Except String String) (ctx : InsertCtx)
    (features : List Feature) (db : DB) : DB × Option String :=
  saveChunksAux parse ctx features.length features db

/-- Responses of the two batch-insert endpoints. -/
inductive SaveResp
  | ok (count : Nat)
  | badRequest (e : String)
  | notFound (e : String)
  | err (e : String)
deriving DecidableEq, Repr

/-- Model of `save_observations` (`app.py` lines 499-577): validation,
project-existence check, chunked insert, then cache invalidation for the
project — the cache key is deleted only on the all-chunks-committed path. -/
def save_observations (parse : String → Except String String) (ctx : InsertCtx)
    (features : List Feature) (s : Sys) : Sys × SaveResp :=
  if features.isEmpty then (s, .badRequest "No features provided")
  else if s.db.projects.contains ctx.project_id then
    match saveChunks parse ctx features s.db with
    | (db2, some e) => ({ s with db := db2 }, .err e)
    | (db2, none) =>
      ({ s with db := db2, cache := cacheDelete s.cache (statsKey ctx.project_id) },
       .ok (db2.observations.length - s.db.observations.length))
  else (s, .notFound "Project not found")

/-- Model of the insert phase of `upload_csv_to_project` (`app.py` lines
664-709), starting from the feature list built out of the CSV rows: unlike
`save_observations`, all rows are converted *before* the chunked-commit
loop, so a malformed geometry raises before anything is inserted; on
success the chunk loop commits everything and the cache key is deleted. -/
def upload_csv_to_project (parse : String → Except String String) (ctx : InsertCtx)
    (features : List Feature) (s : Sys) : Sys × SaveResp :=
  if features.isEmpty then (s, .badRequest "No valid rows with coordinates found in CSV")
  else if s.db.projects.contains ctx.project_id then
    match convFeatures parse ctx features with
    | .error e => (s, .err e)
    | .ok rows =>
      ({ s with db := insertRows s.db rows
                cache := cacheDelete s.cache (statsKey ctx.project_id) },
       .ok rows.length)
  else (s, .notFound "Project not found")

/-- Responses of the two deletion endpoints. -/
inductive DelResp
  | ok (deleted_observations : Nat)
  | notFound (e : String)
deriving DecidableEq, Repr

/-- Model of `delete_project` (`app.py` lines 393-429): after the existence
check it deletes the project's convex-hull row, its grid cells, the project
itself (the FK/ORM cascade removes its observations), then deletes the
stats cache key.  (The one-level parent/child cascade on `projects` is not
modelled; the verified claim concerns rows keyed by the deleted id.) -/
def delete_project (pid : Nat) (s : Sys) : Sys × DelResp :=
  if s.db.projects.contains pid then
    let obsCnt := (projObs s.db pid).length
    ({ s with
        db := { s.db with
                projects := s.db.projects.filter (fun p => p != pid)
                observations := s.db.observations.filter (fun o => o.project_id != pid)
                hulls := s.db.hulls.filter (fun h => h.project_id != pid)
                gridCells := s.db.gridCells.filter (fun g => g.project_id != pid) }
        cache := cacheDelete s.cache (statsKey pid) },
     .ok obsCnt)
  else (s, .notFound "Project not found")

/-- Model of `delete_dataset_from_project` (`app.py` lines 471-497): deletes
the observations matching both ids (no project-existence check in the
source), commits, and deletes the stats cache key. -/
def delete_dataset_from_project (pid : Nat) (did : String) (s : Sys) : Sys × DelResp :=
  let deleted := s.db.observations.filter
    (fun o => o.project_id == pid && o.dataset_id == did)
  ({ s with
      db := { s.db with
              observations := s.db.observations.filter
                (fun o => !(o.project_id == pid && o.dataset_id == did)) }
      cache := cacheDelete s.cache (statsKey pid) },
   .ok deleted.length)

/-- Responses of the single-observation exclusion endpoint. -/
inductive ExclResp
  | ok (excluded : Bool)
  | notFound (e : String)
deriving DecidableEq, Repr

/-- Update applied to a row by both exclusion endpoints: write the flag into
the `properties` JSONB under key `excluded` and into the indexed `excluded`
boolean column. -/
def setExcludedRow (b : Bool) (o : Obs) : Obs :=
  { o with properties := propSet o.properties "excluded" (.bool b), excluded := some b }

/-- Model of `set_observation_excluded` (`app.py` lines 927-955): look up
the row by id; if present, write the flag into the properties dict and the
`excluded` column and commit.  The stats cache is not touched. -/
def set_observation_excluded (oid : Nat) (b : Bool) (s : Sys) : Sys × ExclResp :=
  if s.db.observations.any (fun o => o.id == oid) then
    ({ s with
        db := { s.db with
                observations := s.db.observations.map
                  (fun o => if o.id == oid then setExcludedRow b o else o) } },
     .ok b)
  else (s, .notFound "Observation not found")

/-- Responses of the batch exclusion endpoint. -/
inductive BatchResp
  | ok (processed failed : Nat)
  | badRequest (e : String)
deriving DecidableEq, Repr

/-- Model of `set_observations_excluded` (`app.py` lines 957-998): one SQL
`UPDATE .. WHERE id = ANY(:ids) RETURNING id` writing both the JSONB key and
the column; `processed` is the number of rows updated, `failed` is
`len(ids) - processed`.  The stats cache is not touched. -/
def set_observations_excluded (ids : List Nat) (b : Bool) (s : Sys) : Sys × BatchResp :=
  if ids.isEmpty then (s, .badRequest "ids must be a non-empty list")
  else
    let processed := (s.db.observations.filter (fun o => ids.contains o.id)).length
    ({ s with
        db := { s.db with
                observations := s.db.observations.map
                  (fun o => if ids.contains o.id then setExcludedRow b o else o) } },
     .ok processed (ids.length - processed))

/-- Responses of the hull recomputation endpoint. -/
inductive HullResp
  | ok (area_km2 : Rat)
  | notFound (e : String)
  | badRequest (e : String)
deriving DecidableEq, Repr

/-- Whether a hull response is an error response. -/
def HullResp.isError : HullResp → Bool
  | .ok _ => false
  | .notFound _ => true
  | .badRequest _ => true

/-- Geometries feeding the hull: SQL `WHERE project_id = :pid AND geometry
IS NOT NULL AND (excluded IS NULL OR excluded = FALSE)`. -/
def nonExcludedGeoms (db : DB) (pid : Nat) : List String :=
  db.observations.filterMap
    (fun o =>
      if o.project_id == pid && o.excluded != some true then o.geometry else none)

/-- Model of `calculate_convex_hull` (`app.py` lines 1260-1346): 404 when the
project has no observations at all; otherwise `ST_Collect` over the
non-excluded geometries is NULL exactly when that set is empty, the
`WHERE geom_collection IS NOT NULL` row vanishes and the handler answers 400
without writing; otherwise the hull row is upserted (full replace) for the
project.  `ST_ConvexHull` and the reprojected `ST_Area` are the external
parameters `hullFn` and `areaFn`. -/
def calculate_convex_hull (hullFn : List String → String) (areaFn : String → Rat)
    (pid : Nat) (s : Sys) : Sys × HullResp :=
  if (projObs s.db pid).length == 0 then
    (s, .notFound "Project not found or has no observations")
  else
    let gs := nonExcludedGeoms s.db pid
    if gs.isEmpty then
      (s, .badRequest
        "Could not calculate convex hull. Project may have insufficient non-excluded geometries.")
    else
      let hull := hullFn gs
      let row : HullRow :=
        { project_id := pid, geometry := hull, area_km2 := areaFn hull
          calculated_at := s.now }
      ({ s with
          db := { s.db with
                  hulls := row :: s.db.hulls.filter (fun h => h.project_id != pid) } },
       .ok row.area_km2)

/-- Model of `calculate_grid` (`app.py` lines 1369-1407): delete all grid
cells of the project, then insert the base cells intersecting a non-excluded
observation geometry.  The PostGIS join selecting those cells is external;
its result is the `cells` parameter. -/
def calculate_grid (pid : Nat) (cells : List String) (s : Sys) : Sys × Nat :=
  let db2 : DB :=
    { s.db with
      gridCells := (cells.map (fun g => { project_id := pid, geom := g })) ++
        s.db.gridCells.filter (fun c => c.project_id != pid) }
  ({ s with db := db2 }, (db2.gridCells.filter (fun c => c.project_id == pid)).length)

/-- Model of `create_child_project` (`app.py` lines 310-355) reduced to the
id structure: a fresh project row appears.  The freshness of the id is the
database's serial-key guarantee. -/
def create_project (pid : Nat) (s : Sys) : Sys :=
  { s with db := { s.db with projects := pid :: s.db.projects } }

/-- Requests handled by the service that change system state (pure readers
such as `get_observations` and `get_convex_hull` leave the state as is).
Clock advance between requests is the `tick` step.  External collaborators
(the shapely parser, the PostGIS hull/area operators, the grid join) are
universally quantified in the corresponding constructors. -/
inductive Step : Sys → Sys → Prop
  | tick (s : Sys) (dt : Nat) : Step s { s with now := s.now + dt }
  | create (s : Sys) (pid : Nat) : Step s (create_project pid s)
  | save (s : Sys) (parse : String → Except String String) (ctx : InsertCtx)
      (features : List Feature) : Step s (save_observations parse ctx features s).1
  | upload (s : Sys) (parse : String → Except String String) (ctx : InsertCtx)
      (features : List Feature) : Step s (upload_csv_to_project parse ctx features s).1
  | delProject (s : Sys) (pid : Nat) : Step s (delete_project pid s).1
  | delDataset (s : Sys) (pid : Nat) (did : String) :
      Step s (delete_dataset_from_project pid did s).1
  | exclOne (s : Sys) (oid : Nat) (b : Bool) : Step s (set_observation_excluded oid b s).1
  | exclMany (s : Sys) (ids : List Nat) (b : Bool) :
      Step s (set_observations_excluded ids b s).1
  | stats (s : Sys) (pid : Nat) : Step s (get_dataset_stats pid s).1
  | hull (s : Sys) (hullFn : List String → String) (areaFn : String → Rat) (pid : Nat) :
      Step s (calculate_convex_hull hullFn areaFn pid s).1
  | grid (s : Sys) (pid : Nat) (cells : List String) :
      Step s (calculate_grid pid cells s).1

/-- Reachable system states: a fresh process start (seeded projects, any
table contents are absent, empty process-local cache — a restart equals a
full cache clear) followed by any request sequence. -/
inductive Reachable : Sys → Prop
  | init (projects : List Nat) (nextId now : Nat) :
      Reachable ⟨⟨projects, [], [], [], nextId⟩, [], now⟩
  | step {s t : Sys} : Reachable s → Step s t → Reachable t

/-- Cache-coherence invariant: a stats cache entry exists only for a project
that currently has at least one observation. -/
def CacheInv (s : Sys) : Prop :=
  ∀ pid : Nat, cacheHasKey s.cache (statsKey pid) = true → 0 < (projObs s.db pid).length

/-! Injectivity of the decimal rendering used by `statsKey`.  The cache-key
invariant below needs that distinct project ids produce distinct cache
keys. -/

/-- Structural decimal digit list of a natural number (most significant
first), the shape produced by `Nat.toDigitsCore` at base 10. -/
def decimalDigits (n : Nat) : List Char :=
  if _ : n < 10 then [Nat.digitChar n]
  else decimalDigits (n / 10) ++ [Nat.digitChar (n % 10)]
termination_by n
decreasing_by
  exact Nat.div_lt_self (by omega) (by omega)

/-- Decimal value of a digit list, the left inverse of `decimalDigits`. -/
def digitsToNat (cs : List Char) : Nat :=
  cs.foldl (fun a c => 10 * a + (c.toNat - 48)) 0

theorem digitChar_toNat (d : Nat) (h : d < 10) : (Nat.digitChar d).toNat = 48 + d := by
  interval_cases d <;> rfl

theorem toDigitsCore_eq_decimalDigits :
    ∀ (fuel n : Nat) (ds : List Char), n < fuel →
      Nat.toDigitsCore 10 fuel n ds = decimalDigits n ++ ds := by
  intro fuel
  induction fuel with
  | zero => intro n ds h; omega
  | succ f ih =>
    intro n ds h
    by_cases h10 : n / 10 = 0
    · have hn : n < 10 := by omega
      rw [decimalDigits]
      simp [Nat.toDigitsCore, h10, Nat.mod_eq_of_lt hn, dif_pos hn]
    · have hn : ¬ n < 10 := by omega
      have hrec : n / 10 < f := by
        have h2 : n / 10 < n := Nat.div_lt_self (by omega) (by omega)
        omega
      rw [decimalDigits]
      simp only [Nat.toDigitsCore, h10, if_false, dif_neg hn]
      rw [ih (n / 10) (Nat.digitChar (n % 10) :: ds) hrec]
      simp

theorem decimalDigits_foldl (n : Nat) :
    ∀ a : Nat,
      List.foldl (fun a c => 10 * a + (c.toNat - 48)) a (decimalDigits n) =
        a * 10 ^ (decimalDigits n).length + n := by
  induction n using Nat.strong_induction_on with
  | _ n ih =>
    intro a
    by_cases h : n < 10
    · rw [decimalDigits]
      simp [dif_pos h, digitChar_toNat n h]
      omega
    · rw [decimalDigits]
      simp only [dif_neg h, List.foldl_append, List.length_append, List.foldl_cons,
        List.foldl_nil, List.length_cons, List.length_nil]
      have hlt : n / 10 < n := Nat.div_lt_self (by omega) (by omega)
      rw [ih (n / 10) hlt a]
      rw [digitChar_toNat (n % 10) (Nat.mod_lt n (by omega))]
      have hmod : 48 + n % 10 - 48 = n % 10 := by omega
      rw [hmod]
      have hpow : 10 ^ ((decimalDigits (n / 10)).length + (0 + 1)) =
          10 ^ (decimalDigits (n / 10)).length * 10 := by
        rw [Nat.zero_add, pow_succ]
      rw [hpow]
      have hdm : 10 * (n / 10) + n % 10 = n := by omega
      calc 10 * (a * 10 ^ (decimalDigits (n / 10)).length + n / 10) + n % 10
          = a * (10 ^ (decimalDigits (n / 10)).length * 10) + (10 * (n / 10) + n % 10) := by
            ring
        _ = a * (10 ^ (decimalDigits (n / 10)).length * 10) + n := by rw [hdm]

theorem digitsToNat_decimalDigits (n : Nat) : digitsToNat (decimalDigits n) = n := by
  unfold digitsToNat
  rw [decimalDigits_foldl n 0]
  simp

theorem decimalDigits_injective : Function.Injective decimalDigits := by
  intro m n h
  have hm := digitsToNat_decimalDigits m
  have hn := digitsToNat_decimalDigits n
  rw [h] at hm
  omega

theorem nat_repr_eq_decimalDigits (n : Nat) :
    Nat.repr n = (decimalDigits n).asString := by
  unfold Nat.repr Nat.toDigits
  rw [toDigitsCore_eq_decimalDigits (n + 1) n [] (by omega)]
  simp

theorem obsCount_le_append (l ext : List Obs) (pid : Nat) :
    (l.filter (fun o => o.project_id == pid)).length ≤
      ((l ++ ext).filter (fun o => o.project_id == pid)).length := by
  rw [List.filter_append, List.length_append]
  omega

theorem obsCount_filter_preserve (l : List Obs) (q : Obs → Bool) (pid : Nat)
    (h : ∀ o : Obs, o.project_id = pid → q o = true) :
    ((l.filter q).filter (fun o => o.project_id == pid)).length =
      (l.filter (fun o => o.project_id == pid)).length := by
  induction l with
  | nil => rfl
  | cons o l ih =>
    cases hq : q o
    · have hp : (o.project_id == pid) = false := by
        cases hp2 : (o.project_id == pid)
        · rfl
        · rw [h o (by simpa using hp2)] at hq
          exact hq
      simp [List.filter_cons, hq, hp, -List.filter_filter, ih]
    · cases hp : (o.project_id == pid) <;>
        simp [List.filter_cons, hq, hp, -List.filter_filter, ih]

theorem obsCount_map_preserve (l : List Obs) (g : Obs → Obs)
    (h : ∀ o : Obs, (g o).project_id = o.project_id) (pid : Nat) :
    ((l.map g).filter (fun o => o.project_id == pid)).length =
      (l.filter (fun o => o.project_id == pid)).length := by
  induction l with
  | nil => rfl
  | cons o l ih =>
    cases hp : (o.project_id == pid) <;>
      simp [List.map_cons, List.filter_cons, h o, hp, ih]

theorem saveChunksAux_obs (parse : String → Except String String) (ctx : InsertCtx) :
    ∀ (fuel : Nat) (features : List Feature) (db : DB),
      ∃ ext : List Obs,
        (saveChunksAux parse ctx fuel features db).1.observations =
          db.observations ++ ext := by
  intro fuel
  induction fuel with
  | zero =>
    intro features db
    cases features with
    | nil => exact ⟨[], by simp [saveChunksAux]⟩
    | cons f fs => exact ⟨[], by simp [saveChunksAux]⟩
  | succ m ih =>
    intro features db
    cases features with
    | nil => exact ⟨[], by simp [saveChunksAux]⟩
    | cons f fs =>
      rw [saveChunksAux]
      cases hc : convFeatures parse ctx ((f :: fs).take chunkSize) with
      | error e => exact ⟨[], by simp⟩
      | ok rows =>
        obtain ⟨ext2, hext2⟩ := ih ((f :: fs).drop chunkSize) (insertRows db rows)
        refine ⟨assignIds db.nextId rows ++ ext2, ?_⟩
        dsimp only
        rw [hext2]
        simp [insertRows]

theorem cacheHasKey_iff (c : List CacheEntry) (k : String) :
    cacheHasKey c k = true ↔ ∃ e ∈ c, e.key = k := by
  unfold cacheHasKey cacheLookup
  rw [List.find?_isSome]
  constructor
  · rintro ⟨e, he, hk⟩
    exact ⟨e, he, by simpa using hk⟩
  · rintro ⟨e, he, hk⟩
    exact ⟨e, he, by simpa using hk⟩

theorem cacheDelete_hasKey {c : List CacheEntry} {k0 k : String}
    (h : cacheHasKey (cacheDelete c k0) k = true) :
    cacheHasKey c k = true ∧ k ≠ k0 := by
  rw [cacheHasKey_iff] at h
  obtain ⟨e, he, hk⟩ := h
  unfold cacheDelete at he
  rw [List.mem_filter] at he
  refine ⟨(cacheHasKey_iff c k).mpr ⟨e, he.1, hk⟩, ?_⟩
  have hne : e.key ≠ k0 := by simpa using he.2
  rw [← hk]
  exact hne

theorem cacheSet_hasKey {c : List CacheEntry} {t0 : Nat} {k0 : String} {v : StatsResult}
    {k : String} (h : cacheHasKey (cacheSet c t0 k0 v) k = true) :
    k = k0 ∨ cacheHasKey c k = true := by
  rw [cacheHasKey_iff] at h
  obtain ⟨e, he, hk⟩ := h
  unfold cacheSet at he
  rcases List.mem_cons.mp he with he1 | he2
  · left
    rw [← hk, he1]
  · right
    rw [List.mem_filter] at he2
    exact (cacheHasKey_iff c k).mpr ⟨e, he2.1, hk⟩

theorem cacheGet_fst (c : List CacheEntry) (t0 : Nat) (k : String) :
    (cacheGet c t0 k).1 = c ∨ (cacheGet c t0 k).1 = cacheDelete c k := by
  unfold cacheGet
  cases hl : cacheLookup c k
  · exact Or.inl rfl
  · dsimp only
    split
    · exact Or.inl rfl
    · exact Or.inr rfl

theorem cacheGet_fst_hasKey {c : List CacheEntry} {t0 : Nat} {k0 k : String}
    (h : cacheHasKey (cacheGet c t0 k0).1 k = true) : cacheHasKey c k = true := by
  rcases cacheGet_fst c t0 k0 with hc | hc
  · rwa [hc] at h
  · rw [hc] at h
    exact (cacheDelete_hasKey h).1

theorem cacheGet_hit {c : List CacheEntry} {t0 : Nat} {k : String} {v : StatsResult}
    (h : (cacheGet c t0 k).2 = some v) : cacheHasKey c k = true := by
  unfold cacheGet at h
  cases hl : cacheLookup c k
  · rw [hl] at h
    simp at h
  · unfold cacheHasKey
    rw [hl]
    rfl

theorem cacheInv_save (parse : String → Except String String) (ctx : InsertCtx)
    (features : List Feature) {s : Sys} (hinv : CacheInv s) :
    CacheInv (save_observations parse ctx features s).1 := by
  unfold save_observations
  split
  · exact hinv
  · split
    · split
      · next db2 e heq =>
        intro pid hk
        have h0 := hinv pid hk
        obtain ⟨ext, hext⟩ := saveChunksAux_obs parse ctx features.length features s.db
        rw [saveChunks] at heq
        rw [heq] at hext
        unfold projObs at h0 ⊢
        dsimp only at hext ⊢
        rw [hext]
        exact lt_of_lt_of_le h0 (obsCount_le_append _ _ _)
      · next db2 heq =>
        intro pid hk
        dsimp only at hk
        have hk2 := (cacheDelete_hasKey hk).1
        have h0 := hinv pid hk2
        obtain ⟨ext, hext⟩ := saveChunksAux_obs parse ctx features.length features s.db
        rw [saveChunks] at heq
        rw [heq] at hext
        unfold projObs at h0 ⊢
        dsimp only at hext ⊢
        rw [hext]
        exact lt_of_lt_of_le h0 (obsCount_le_append _ _ _)
    · exact hinv

theorem cacheInv_upload (parse : String → Except String String) (ctx : InsertCtx)
    (features : List Feature) {s : Sys} (hinv : CacheInv s) :
    CacheInv (upload_csv_to_project parse ctx features s).1 := by
  unfold upload_csv_to_project
  split
  · exact hinv
  · split
    · split
      · exact hinv
      · next rows heq =>
        intro pid hk
        dsimp only at hk
        have hk2 := (cacheDelete_hasKey hk).1
        have h0 := hinv pid hk2
        unfold projObs at h0 ⊢
        dsimp only [insertRows]
        exact lt_of_lt_of_le h0 (obsCount_le_append _ _ _)
    · exact hinv

theorem string_data_inj {s t : String} (h : s.data = t.data) : s = t := by
  cases s
  cases t
  exact congrArg String.mk h

theorem nat_repr_injective : Function.Injective Nat.repr := by
  intro m n h
  rw [nat_repr_eq_decimalDigits, nat_repr_eq_decimalDigits] at h
  exact decimalDigits_injective (congrArg String.data h)

theorem statsKey_injective : Function.Injective statsKey := by
  intro m n h
  apply nat_repr_injective
  unfold statsKey at h
  have hd : ("stats:" ++ Nat.repr m).data = ("stats:" ++ Nat.repr n).data := by rw [h]
  simp only [String.data_append] at hd
  exact string_data_inj (List.append_cancel_left hd)

theorem statsKey_ne_of_ne {a b : Nat} (h : statsKey a ≠ statsKey b) : a ≠ b := by
  intro he
  exact h (by rw [he])

theorem cacheInv_delete_project (pid : Nat) {s : Sys} (hinv : CacheInv s) :
    CacheInv (delete_project pid s).1 := by
  unfold delete_project
  split
  · intro q hk
    dsimp only at hk ⊢
    obtain ⟨hk2, hne⟩ := cacheDelete_hasKey hk
    have h0 := hinv q hk2
    have hq : q ≠ pid := statsKey_ne_of_ne hne
    unfold projObs at h0 ⊢
    dsimp only
    rw [obsCount_filter_preserve]
    · exact h0
    · intro o ho
      simp [ho, hq]
  · exact hinv

theorem cacheInv_delete_dataset (pid : Nat) (did : String) {s : Sys} (hinv : CacheInv s) :
    CacheInv (delete_dataset_from_project pid did s).1 := by
  unfold delete_dataset_from_project
  intro q hk
  dsimp only at hk ⊢
  obtain ⟨hk2, hne⟩ := cacheDelete_hasKey hk
  have h0 := hinv q hk2
  have hq : q ≠ pid := statsKey_ne_of_ne hne
  unfold projObs at h0 ⊢
  dsimp only
  rw [obsCount_filter_preserve]
  · exact h0
  · intro o ho
    simp [ho, hq]

theorem cacheInv_excl_one (oid : Nat) (b : Bool) {s : Sys} (hinv : CacheInv s) :
    CacheInv (set_observation_excluded oid b s).1 := by
  unfold set_observation_excluded
  split
  · intro q hk
    dsimp only at hk ⊢
    have h0 := hinv q hk
    unfold projObs at h0 ⊢
    dsimp only
    rw [obsCount_map_preserve]
    · exact h0
    · intro o
      by_cases ho : o.id == oid <;> simp [ho, setExcludedRow]
  · exact hinv

theorem cacheInv_excl_many (ids : List Nat) (b : Bool) {s : Sys} (hinv : CacheInv s) :
    CacheInv (set_observations_excluded ids b s).1 := by
  unfold set_observations_excluded
  split
  · exact hinv
  · intro q hk
    dsimp only at hk ⊢
    have h0 := hinv q hk
    unfold projObs at h0 ⊢
    dsimp only
    rw [obsCount_map_preserve]
    · exact h0
    · intro o
      by_cases ho : o.id ∈ ids <;> simp [ho, setExcludedRow]

theorem cacheInv_stats (pid : Nat) {s : Sys} (hinv : CacheInv s) :
    CacheInv (get_dataset_stats pid s).1 := by
  unfold get_dataset_stats
  dsimp only
  cases hp : (cacheGet s.cache s.now (statsKey pid)).2 with
  | some v =>
    intro q hk
    dsimp only at hk
    exact hinv q (cacheGet_fst_hasKey hk)
  | none =>
    by_cases hc : s.db.projects.contains pid = true
    · rw [if_pos hc]
      by_cases ht : ((projObs s.db pid).length == 0) = true
      · rw [if_pos ht]
        intro q hk
        dsimp only at hk
        exact hinv q (cacheGet_fst_hasKey hk)
      · rw [if_neg ht]
        cases hi : icStats ((projObs s.db pid).map
            (fun o => pvText (propLookup o.properties icPath))) with
        | error e =>
          intro q hk
          dsimp only at hk
          exact hinv q (cacheGet_fst_hasKey hk)
        | ok ics =>
          intro q hk
          dsimp only at hk ⊢
          rcases cacheSet_hasKey hk with heq | hk2
          · have hq : q = pid := statsKey_injective heq
            subst hq
            simp only [beq_iff_eq] at ht
            omega
          · exact hinv q (cacheGet_fst_hasKey hk2)
    · rw [if_neg hc]
      intro q hk
      dsimp only at hk
      exact hinv q (cacheGet_fst_hasKey hk)

theorem cacheInv_hull (hullFn : List String → String) (areaFn : String → Rat)
    (pid : Nat) {s : Sys} (hinv : CacheInv s) :
    CacheInv (calculate_convex_hull hullFn areaFn pid s).1 := by
  unfold calculate_convex_hull
  by_cases h0 : ((projObs s.db pid).length == 0) = true
  · rw [if_pos h0]
    exact hinv
  · rw [if_neg h0]
    dsimp only
    by_cases hg : (nonExcludedGeoms s.db pid).isEmpty = true
    · rw [if_pos hg]
      exact hinv
    · rw [if_neg hg]
      intro q hk
      exact hinv q hk

theorem cacheInv_grid (pid : Nat) (cells : List String) {s : Sys} (hinv : CacheInv s) :
    CacheInv (calculate_grid pid cells s).1 := by
  unfold calculate_grid
  intro q hk
  exact hinv q hk

theorem cacheInv_step {s t : Sys} (hinv : CacheInv s) (hstep : Step s t) : CacheInv t := by
  cases hstep with
  | tick dt => exact fun q hk => hinv q hk
  | create pid => exact fun q hk => hinv q hk
  | save parse ctx features => exact cacheInv_save parse ctx features hinv
  | upload parse ctx features => exact cacheInv_upload parse ctx features hinv
  | delProject pid => exact cacheInv_delete_project pid hinv
  | delDataset pid did => exact cacheInv_delete_dataset pid did hinv
  | exclOne oid b => exact cacheInv_excl_one oid b hinv
  | exclMany ids b => exact cacheInv_excl_many ids b hinv
  | stats pid => exact cacheInv_stats pid hinv
  | hull hullFn areaFn pid => exact cacheInv_hull hullFn areaFn pid hinv
  | grid pid cells => exact cacheInv_grid pid cells hinv

theorem reachable_cacheInv {s : Sys} (h : Reachable s) : CacheInv s := by
  induction h with
  | init projects nextId now =>
    intro q hk
    simp [cacheHasKey, cacheLookup] at hk
  | step hr hs ih => exact cacheInv_step ih hs


/-! Helper lemmas about feature conversion, id assignment and chunked
insertion, used to characterise the failure behaviour of the chunk loop. -/

theorem convFeatures_length (parse : String → Except String String) (ctx : InsertCtx) :
    ∀ (l : List Feature) (r : List Obs), convFeatures parse ctx l = .ok r →
      r.length = l.length := by
  intro l
  induction l with
  | nil =>
    intro r h
    simp only [convFeatures] at h
    cases h
    rfl
  | cons f fs ih =>
    intro r h
    rw [convFeatures] at h
    cases hc : convertFeature parse ctx f with
    | error e =>
      rw [hc] at h
      cases h
    | ok o =>
      rw [hc] at h
      cases hr : convFeatures parse ctx fs with
      | error e =>
        rw [hr] at h
        cases h
      | ok os =>
        rw [hr] at h
        cases h
        simp [ih os hr]

theorem convFeatures_take (parse : String → Except String String) (ctx : InsertCtx) :
    ∀ (l : List Feature) (r : List Obs), convFeatures parse ctx l = .ok r →
      ∀ k : Nat, convFeatures parse ctx (l.take k) = .ok (r.take k) := by
  intro l
  induction l with
  | nil =>
    intro r h k
    simp only [convFeatures] at h
    cases h
    simp [convFeatures]
  | cons f fs ih =>
    intro r h k
    rw [convFeatures] at h
    cases hc : convertFeature parse ctx f with
    | error e =>
      rw [hc] at h
      cases h
    | ok o =>
      rw [hc] at h
      cases hr : convFeatures parse ctx fs with
      | error e =>
        rw [hr] at h
        cases h
      | ok os =>
        rw [hr] at h
        cases h
        cases k with
        | zero => simp [convFeatures]
        | succ k2 =>
          simp only [List.take_succ_cons]
          rw [convFeatures, hc, ih os hr k2]

theorem convFeatures_drop (parse : String → Except String String) (ctx : InsertCtx) :
    ∀ (l : List Feature) (r : List Obs), convFeatures parse ctx l = .ok r →
      ∀ k : Nat, convFeatures parse ctx (l.drop k) = .ok (r.drop k) := by
  intro l
  induction l with
  | nil =>
    intro r h k
    simp only [convFeatures] at h
    cases h
    simp [convFeatures]
  | cons f fs ih =>
    intro r h k
    rw [convFeatures] at h
    cases hc : convertFeature parse ctx f with
    | error e =>
      rw [hc] at h
      cases h
    | ok o =>
      rw [hc] at h
      cases hr : convFeatures parse ctx fs with
      | error e =>
        rw [hr] at h
        cases h
      | ok os =>
        rw [hr] at h
        cases h
        cases k with
        | zero =>
          simp only [List.drop_zero]
          rw [convFeatures, hc, hr]
        | succ k2 =>
          simp only [List.drop_succ_cons]
          exact ih os hr k2

theorem assignIds_append (r1 : List Obs) :
    ∀ (start : Nat) (r2 : List Obs),
      assignIds start (r1 ++ r2) = assignIds start r1 ++ assignIds (start + r1.length) r2 := by
  induction r1 with
  | nil =>
    intro start r2
    simp [assignIds]
  | cons o os ih =>
    intro start r2
    simp only [List.cons_append, assignIds, List.length_cons, List.append_eq]
    congr 1
    rw [ih (start + 1) r2]
    congr 2
    omega

theorem insertRows_nil (db : DB) : insertRows db [] = db := by
  cases db
  simp [insertRows, assignIds]

theorem insertRows_insertRows (db : DB) (r1 r2 : List Obs) :
    insertRows (insertRows db r1) r2 = insertRows db (r1 ++ r2) := by
  cases db
  simp [insertRows, assignIds_append, List.append_assoc, Nat.add_assoc]

theorem saveChunksAux_fail (parse : String → Except String String) (ctx : InsertCtx) :
    ∀ (fuel k : Nat) (features : List Feature) (db : DB) (rows : List Obs) (e : String),
      features.length ≤ fuel →
      chunkSize * k < features.length →
      convFeatures parse ctx (features.take (chunkSize * k)) = .ok rows →
      convFeatures parse ctx ((features.drop (chunkSize * k)).take chunkSize) = .error e →
      saveChunksAux parse ctx fuel features db = (insertRows db rows, some e) := by
  intro fuel
  induction fuel with
  | zero =>
    intro k features db rows e hle hlt _ _
    omega
  | succ m ih =>
    intro k features db rows e hle hlt hok hbad
    cases features with
    | nil => simp at hlt
    | cons f fs =>
      rw [saveChunksAux]
      cases k with
      | zero =>
        have hr : rows = [] := by
          rw [Nat.mul_zero, List.take_zero] at hok
          simp only [convFeatures] at hok
          cases hok
          rfl
        subst hr
        rw [Nat.mul_zero, List.drop_zero] at hbad
        rw [hbad, insertRows_nil]
      | succ k2 =>
        have hcs : chunkSize ≤ chunkSize * (k2 + 1) := by
          simp only [chunkSize]
          omega
        have hchunk : convFeatures parse ctx ((f :: fs).take chunkSize) =
            .ok (rows.take chunkSize) := by
          have h1 : (f :: fs).take chunkSize =
              ((f :: fs).take (chunkSize * (k2 + 1))).take chunkSize := by
            rw [List.take_take, Nat.min_eq_left hcs]
          rw [h1]
          exact convFeatures_take parse ctx _ _ hok chunkSize
        rw [hchunk]
        dsimp only
        have harith : chunkSize * (k2 + 1) - chunkSize = chunkSize * k2 := by
          simp only [chunkSize]
          omega
        have hlen2 : ((f :: fs).drop chunkSize).length ≤ m := by
          rw [List.length_drop]
          simp only [chunkSize] at hle ⊢
          omega
        have hlt2 : chunkSize * k2 < ((f :: fs).drop chunkSize).length := by
          rw [List.length_drop]
          simp only [chunkSize] at hlt ⊢
          omega
        have hok2 : convFeatures parse ctx
            (((f :: fs).drop chunkSize).take (chunkSize * k2)) = .ok (rows.drop chunkSize) := by
          have h2 : ((f :: fs).drop chunkSize).take (chunkSize * k2) =
              ((f :: fs).take (chunkSize * (k2 + 1))).drop chunkSize := by
            rw [List.drop_take, harith]
          rw [h2]
          exact convFeatures_drop parse ctx _ _ hok chunkSize
        have hbad2 : convFeatures parse ctx
            ((((f :: fs).drop chunkSize).drop (chunkSize * k2)).take chunkSize) = .error e := by
          rw [List.drop_drop]
          have h3 : chunkSize + chunkSize * k2 = chunkSize * (k2 + 1) := by
            simp only [chunkSize]
            omega
          rw [h3]
          exact hbad
        rw [ih k2 ((f :: fs).drop chunkSize) (insertRows db (rows.take chunkSize))
          (rows.drop chunkSize) e hlen2 hlt2 hok2 hbad2]
        rw [insertRows_insertRows, List.take_append_drop]

/-! Helper lemmas for the aggregate characterisation and the claim
theorems. -/

theorem foldl_min_mem (xs : List Int) : ∀ x : Int, xs.foldl min x ∈ x :: xs := by
  induction xs with
  | nil =>
    intro x
    simp
  | cons y ys ih =>
    intro x
    rw [List.foldl_cons]
    rcases List.mem_cons.mp (ih (min x y)) with h1 | h2
    · rw [h1]
      rcases min_choice x y with hc | hc <;> rw [hc] <;> simp
    · exact List.mem_cons_of_mem x (List.mem_cons_of_mem y h2)

theorem foldl_min_le (xs : List Int) : ∀ x : Int, ∀ y ∈ x :: xs, xs.foldl min x ≤ y := by
  induction xs with
  | nil =>
    intro x y hy
    rcases List.mem_cons.mp hy with h | h
    · rw [h]
      simp
    · simp at h
  | cons z zs ih =>
    intro x y hy
    rw [List.foldl_cons]
    rcases List.mem_cons.mp hy with h | h
    · rw [h]
      exact le_trans (ih (min x z) (min x z) (List.mem_cons_self _ _)) (min_le_left x z)
    · rcases List.mem_cons.mp h with h2 | h2
      · rw [h2]
        exact le_trans (ih (min x z) (min x z) (List.mem_cons_self _ _)) (min_le_right x z)
      · exact ih (min x z) y (List.mem_cons_of_mem _ h2)

theorem foldl_max_mem (xs : List Int) : ∀ x : Int, xs.foldl max x ∈ x :: xs := by
  induction xs with
  | nil =>
    intro x
    simp
  | cons y ys ih =>
    intro x
    rw [List.foldl_cons]
    rcases List.mem_cons.mp (ih (max x y)) with h1 | h2
    · rw [h1]
      rcases max_choice x y with hc | hc <;> rw [hc] <;> simp
    · exact List.mem_cons_of_mem x (List.mem_cons_of_mem y h2)

theorem foldl_max_ge (xs : List Int) : ∀ x : Int, ∀ y ∈ x :: xs, y ≤ xs.foldl max x := by
  induction xs with
  | nil =>
    intro x y hy
    rcases List.mem_cons.mp hy with h | h
    · rw [h]
      simp
    · simp at h
  | cons z zs ih =>
    intro x y hy
    rw [List.foldl_cons]
    rcases List.mem_cons.mp hy with h | h
    · rw [h]
      exact le_trans (le_max_left x z) (ih (max x z) (max x z) (List.mem_cons_self _ _))
    · rcases List.mem_cons.mp h with h2 | h2
      · rw [h2]
        exact le_trans (le_max_right x z) (ih (max x z) (max x z) (List.mem_cons_self _ _))
      · exact ih (max x z) y (List.mem_cons_of_mem _ h2)

theorem foldl_add_int (xs : List Int) : ∀ a : Int, xs.foldl (· + ·) a = a + xs.sum := by
  induction xs with
  | nil =>
    intro a
    simp
  | cons x ys ih =>
    intro a
    simp only [List.foldl_cons, List.sum_cons, ih (a + x)]
    ring

theorem filter_ne_filter_eq_nil {α : Type} (l : List α) (f : α → Nat) (pid : Nat) :
    (l.filter (fun x => f x != pid)).filter (fun x => f x == pid) = [] := by
  induction l with
  | nil => rfl
  | cons x xs ih =>
    by_cases h : f x = pid <;> simp [List.filter_cons, h, ih]

theorem cacheDelete_hasKey_self (c : List CacheEntry) (k : String) :
    cacheHasKey (cacheDelete c k) k = false := by
  cases h : cacheHasKey (cacheDelete c k) k
  · rfl
  · exact absurd rfl (cacheDelete_hasKey h).2

theorem propLookup_propSet (ps : Props) (k : String) (v : PValue) :
    propLookup (propSet ps k v) k = some v := by
  simp [propLookup, propSet]

example : propLookup (propSet [] "excluded" (.bool true)) "excluded" = some (.bool true) := by
  decide

example : pgParseInt? "3" = some 3 ∧ pgParseInt? "not-a-number" = none ∧
    pgParseInt? " -42 " = some (-42) ∧ pgParseInt? "true" = none := by
  decide

example :
    icStats [some "3", some "not-a-number", some "7", none] =
      .error "invalid input syntax for type integer" := by
  decide

example :
    icStats [some "3", some "7", none] =
      .ok (some { min := 3, max := 7, sum := 10, average := 5, count := 2 }) := by
  decide

/-! Claim theorems. -/

/-- C5: for every project that exists but contains zero observations,
`get_dataset_stats` signals not-found (success=false with a not-found
status) and never returns a zero-filled statistics summary.  Stated over
every reachable system state: the cache-coherence invariant rules out a
stale cache hit for a zero-observation project. -/
theorem claim_C5 (s : Sys) (pid : Nat) (hr : Reachable s)
    (hproj : s.db.projects.contains pid = true)
    (hzero : (projObs s.db pid).length = 0) :
    (get_dataset_stats pid s).2 = .notFound "Project has no observations" := by
  have hinv := reachable_cacheInv hr
  unfold get_dataset_stats
  dsimp only
  cases hp : (cacheGet s.cache s.now (statsKey pid)).2 with
  | some v =>
    exfalso
    have hk := cacheGet_hit hp
    have h0 := hinv pid hk
    omega
  | none =>
    rw [if_pos hproj, if_pos (by simp [hzero])]

/-- Witness for C5: a freshly seeded project with no observations. -/
theorem claim_C5_witness :
    (get_dataset_stats 1 ⟨⟨[1], [], [], [], 0⟩, [], 0⟩).2 =
      StatsResp.notFound "Project has no observations" :=
  claim_C5 ⟨⟨[1], [], [], [], 0⟩, [], 0⟩ 1 (Reachable.init [1] 0 0) (by decide) (by decide)

/-- C4: whenever a project's set of non-excluded, non-null geometries is
empty, the POST hull recomputation fails with one of its two descriptive
errors and writes nothing: the convex-hulls table, and in fact the whole
system state, is left unchanged. -/
theorem claim_C4 (hullFn : List String → String) (areaFn : String → Rat)
    (pid : Nat) (s : Sys) (hempty : nonExcludedGeoms s.db pid = []) :
    ((calculate_convex_hull hullFn areaFn pid s).2 =
        .notFound "Project not found or has no observations" ∨
      (calculate_convex_hull hullFn areaFn pid s).2 =
        .badRequest
          "Could not calculate convex hull. Project may have insufficient non-excluded geometries.") ∧
      (calculate_convex_hull hullFn areaFn pid s).1.db.hulls = s.db.hulls ∧
      (calculate_convex_hull hullFn areaFn pid s).1 = s := by
  unfold calculate_convex_hull
  by_cases h0 : ((projObs s.db pid).length == 0) = true
  · rw [if_pos h0]
    exact ⟨Or.inl rfl, rfl, rfl⟩
  · rw [if_neg h0]
    dsimp only
    rw [if_pos (by rw [hempty]; rfl)]
    exact ⟨Or.inr rfl, rfl, rfl⟩

/-- Witness for C4: a project whose only geometry belongs to an excluded
observation, with a pre-existing hull row that must survive. -/
theorem claim_C4_witness :
    ((calculate_convex_hull (fun _ => "HULL") (fun _ => 0) 1
        ⟨⟨[1], [⟨5, 1, "d", "n", "u", 0, some true, [], some "SRID=4326;POINT(1 1)"⟩],
          [⟨1, "OLD", 2, 0⟩], [], 6⟩, [], 0⟩).2 =
          HullResp.notFound "Project not found or has no observations" ∨
      (calculate_convex_hull (fun _ => "HULL") (fun _ => 0) 1
        ⟨⟨[1], [⟨5, 1, "d", "n", "u", 0, some true, [], some "SRID=4326;POINT(1 1)"⟩],
          [⟨1, "OLD", 2, 0⟩], [], 6⟩, [], 0⟩).2 =
          HullResp.badRequest
            "Could not calculate convex hull. Project may have insufficient non-excluded geometries.") ∧
      (calculate_convex_hull (fun _ => "HULL") (fun _ => 0) 1
        ⟨⟨[1], [⟨5, 1, "d", "n", "u", 0, some true, [], some "SRID=4326;POINT(1 1)"⟩],
          [⟨1, "OLD", 2, 0⟩], [], 6⟩, [], 0⟩).1.db.hulls = [⟨1, "OLD", 2, 0⟩] ∧
      (calculate_convex_hull (fun _ => "HULL") (fun _ => 0) 1
        ⟨⟨[1], [⟨5, 1, "d", "n", "u", 0, some true, [], some "SRID=4326;POINT(1 1)"⟩],
          [⟨1, "OLD", 2, 0⟩], [], 6⟩, [], 0⟩).1 =
        ⟨⟨[1], [⟨5, 1, "d", "n", "u", 0, some true, [], some "SRID=4326;POINT(1 1)"⟩],
          [⟨1, "OLD", 2, 0⟩], [], 6⟩, [], 0⟩ :=
  claim_C4 (fun _ => "HULL") (fun _ => 0) 1
    ⟨⟨[1], [⟨5, 1, "d", "n", "u", 0, some true, [], some "SRID=4326;POINT(1 1)"⟩],
      [⟨1, "OLD", 2, 0⟩], [], 6⟩, [], 0⟩ (by decide)

/-- C8: a successful `delete_project` removes the project's observations,
its convex-hull row and its grid cells: all three per-project counts are
zero afterwards, and the response reports the number of deleted
observations. -/
theorem claim_C8 (pid : Nat) (s : Sys) (hproj : s.db.projects.contains pid = true) :
    (delete_project pid s).2 = .ok ((projObs s.db pid).length) ∧
      (projObs (delete_project pid s).1.db pid).length = 0 ∧
      ((delete_project pid s).1.db.hulls.filter (fun h => h.project_id == pid)).length = 0 ∧
      ((delete_project pid s).1.db.gridCells.filter (fun g => g.project_id == pid)).length = 0 := by
  unfold delete_project
  rw [if_pos hproj]
  refine ⟨rfl, ?_, ?_, ?_⟩
  · unfold projObs
    dsimp only
    rw [filter_ne_filter_eq_nil s.db.observations (fun o => o.project_id) pid]
    rfl
  · dsimp only
    rw [filter_ne_filter_eq_nil s.db.hulls (fun h => h.project_id) pid]
    rfl
  · dsimp only
    rw [filter_ne_filter_eq_nil s.db.gridCells (fun g => g.project_id) pid]
    rfl

/-- Witness for C8: deleting a project with one observation, a hull row and
a grid cell leaves zero rows keyed by the project. -/
theorem claim_C8_witness :
    (delete_project 1
        ⟨⟨[1, 2], [⟨5, 1, "d", "n", "u", 0, some false, [], none⟩],
          [⟨1, "H", 2, 0⟩], [⟨1, "G"⟩], 6⟩, [], 0⟩).2 = DelResp.ok 1 ∧
      (projObs (delete_project 1
        ⟨⟨[1, 2], [⟨5, 1, "d", "n", "u", 0, some false, [], none⟩],
          [⟨1, "H", 2, 0⟩], [⟨1, "G"⟩], 6⟩, [], 0⟩).1.db 1).length = 0 ∧
      ((delete_project 1
        ⟨⟨[1, 2], [⟨5, 1, "d", "n", "u", 0, some false, [], none⟩],
          [⟨1, "H", 2, 0⟩], [⟨1, "G"⟩], 6⟩, [], 0⟩).1.db.hulls.filter
            (fun h => h.project_id == 1)).length = 0 ∧
      ((delete_project 1
        ⟨⟨[1, 2], [⟨5, 1, "d", "n", "u", 0, some false, [], none⟩],
          [⟨1, "H", 2, 0⟩], [⟨1, "G"⟩], 6⟩, [], 0⟩).1.db.gridCells.filter
            (fun g => g.project_id == 1)).length = 0 :=
  claim_C8 1
    ⟨⟨[1, 2], [⟨5, 1, "d", "n", "u", 0, some false, [], none⟩],
      [⟨1, "H", 2, 0⟩], [⟨1, "G"⟩], 6⟩, [], 0⟩ (by decide)

/-- Both exclusion endpoints write the flag into the JSONB key and the
column of every row they touch (single-row form). -/
theorem exclOne_mem_updated (oid : Nat) (b : Bool) (s : Sys) :
    ∀ o2 ∈ (set_observation_excluded oid b s).1.db.observations, o2.id = oid →
      o2.excluded = some b ∧ propLookup o2.properties "excluded" = some (.bool b) := by
  intro o2 hmem hid
  unfold set_observation_excluded at hmem
  by_cases hfound : s.db.observations.any (fun o => o.id == oid) = true
  · rw [if_pos hfound] at hmem
    dsimp only at hmem
    rw [List.mem_map] at hmem
    obtain ⟨o, ho, h2⟩ := hmem
    subst h2
    by_cases hoid : (o.id == oid) = true
    · rw [if_pos hoid]
      exact ⟨rfl, propLookup_propSet o.properties "excluded" (.bool b)⟩
    · rw [if_neg hoid] at hid
      exact absurd (by simp [hid] : (o.id == oid) = true) hoid
  · rw [if_neg hfound] at hmem
    exfalso
    simp only [List.any_eq_true, not_exists, not_and] at hfound
    have h3 := hfound o2 hmem
    simp [hid] at h3

/-- Both exclusion endpoints write the flag into the JSONB key and the
column of every row they touch (batch form). -/
theorem exclMany_mem_updated (ids : List Nat) (b : Bool) (s : Sys) :
    ∀ o2 ∈ (set_observations_excluded ids b s).1.db.observations, o2.id ∈ ids →
      o2.excluded = some b ∧ propLookup o2.properties "excluded" = some (.bool b) := by
  intro o2 hmem hid
  unfold set_observations_excluded at hmem
  by_cases hne : ids.isEmpty = true
  · rw [if_pos hne] at hmem
    exfalso
    rw [List.isEmpty_iff] at hne
    subst hne
    simp at hid
  · rw [if_neg hne] at hmem
    dsimp only at hmem
    rw [List.mem_map] at hmem
    obtain ⟨o, ho, h2⟩ := hmem
    subst h2
    by_cases hoid : (ids.contains o.id) = true
    · rw [if_pos hoid]
      exact ⟨rfl, propLookup_propSet o.properties "excluded" (.bool b)⟩
    · rw [if_neg hoid] at hid
      simp at hoid
      exact absurd hid hoid

/-- Response formula of the batch exclusion endpoint for a non-empty id
list. -/
theorem exclMany_resp (ids : List Nat) (b : Bool) (s : Sys) (hne : ids ≠ []) :
    (set_observations_excluded ids b s).2 =
      .ok ((s.db.observations.filter (fun o => ids.contains o.id)).length)
        (ids.length - (s.db.observations.filter (fun o => ids.contains o.id)).length) := by
  unfold set_observations_excluded
  rw [if_neg (by simp [List.isEmpty_iff, hne])]

/-- Rows whose id is not requested are untouched by the batch exclusion. -/
theorem exclMany_preserves_others (ids : List Nat) (b : Bool) (s : Sys) (hne : ids ≠ []) :
    ((set_observations_excluded ids b s).1.db.observations.filter
        (fun o => !(ids.contains o.id))) =
      (s.db.observations.filter (fun o => !(ids.contains o.id))) := by
  unfold set_observations_excluded
  rw [if_neg (by simp [List.isEmpty_iff, hne])]
  dsimp only
  induction s.db.observations with
  | nil => rfl
  | cons o l ih =>
    by_cases h : (ids.contains o.id) = true
    · simp only [List.map_cons, if_pos h, List.filter_cons]
      have hid : (setExcludedRow b o).id = o.id := rfl
      rw [hid, h]
      simpa using ih
    · simp only [List.map_cons, if_neg h, List.filter_cons]
      rw [Bool.not_eq_true] at h
      rw [h]
      simpa using ih

/-- C9: every exclusion-toggling operation writes the new boolean to both
the `excluded` column and the `excluded` key of the properties JSONB, so
both views agree on every updated row. -/
theorem claim_C9 (s : Sys) :
    (∀ (oid : Nat) (b : Bool),
        ∀ o2 ∈ (set_observation_excluded oid b s).1.db.observations, o2.id = oid →
          o2.excluded = some b ∧ propLookup o2.properties "excluded" = some (.bool b)) ∧
    (∀ (ids : List Nat) (b : Bool),
        ∀ o2 ∈ (set_observations_excluded ids b s).1.db.observations, o2.id ∈ ids →
          o2.excluded = some b ∧ propLookup o2.properties "excluded" = some (.bool b)) :=
  ⟨fun oid b => exclOne_mem_updated oid b s, fun ids b => exclMany_mem_updated ids b s⟩

/-- Witness for C9: after excluding observation 5, its row shows
`excluded = some true` in the column and `true` under the JSONB key. -/
theorem claim_C9_witness :
    (⟨5, 1, "d", "n", "u", 0, some true, [("excluded", PValue.bool true)], none⟩ : Obs).excluded =
        some true ∧
      propLookup
        (⟨5, 1, "d", "n", "u", 0, some true, [("excluded", PValue.bool true)], none⟩ : Obs).properties
        "excluded" = some (PValue.bool true) := by
  have h := (claim_C9 ⟨⟨[1], [⟨5, 1, "d", "n", "u", 0, some false, [], none⟩], [], [], 6⟩, [], 0⟩).1
    5 true
    (⟨5, 1, "d", "n", "u", 0, some true, [("excluded", PValue.bool true)], none⟩ : Obs)
    (by decide) rfl
  exact h

/-- C10: the batch exclusion endpoint reports `processed` as the number of
rows actually updated and `failed` as the length of the requested id list
minus that number — duplicate occurrences of an existing id are therefore
counted as failures. -/
theorem claim_C10 (ids : List Nat) (b : Bool) (s : Sys) (hne : ids ≠ []) :
    (set_observations_excluded ids b s).2 =
      .ok ((s.db.observations.filter (fun o => ids.contains o.id)).length)
        (ids.length - (s.db.observations.filter (fun o => ids.contains o.id)).length) :=
  exclMany_resp ids b s hne

/-- Witness for C10: ids `[5, 5]` against one existing row 5: one row is
updated and one duplicate occurrence is reported as failed. -/
theorem claim_C10_witness :
    (set_observations_excluded [5, 5] true
        ⟨⟨[1], [⟨5, 1, "d", "n", "u", 0, some false, [], none⟩], [], [], 6⟩, [], 0⟩).2 =
      BatchResp.ok 1 1 :=
  (claim_C10 [5, 5] true
      ⟨⟨[1], [⟨5, 1, "d", "n", "u", 0, some false, [], none⟩], [], [], 6⟩, [], 0⟩
      (by decide)).trans (by decide)

/-- Counterexample to C7 as stated: for ids `[5, 5]` with row 5 present,
every requested id is updated (no occurrence refers to a missing row), yet
the endpoint reports `failed = 1`, so `failed` is not the number of ids
that were not updated. -/
theorem claim_C7_counterexample :
    (set_observations_excluded [5, 5] true
        ⟨⟨[1], [⟨5, 1, "d", "n", "u", 0, some false, [], none⟩], [], [], 6⟩, [], 0⟩).2 =
      BatchResp.ok 1 1 ∧
    ([5, 5].filter (fun i =>
        !(([⟨5, 1, "d", "n", "u", 0, some false, [], none⟩] : List Obs).any
            (fun o => o.id == i)))).length = 0 := by
  decide

/-- C7 (amended): the batch exclusion updates each existing id's flag
without failing atomically when some ids are missing, and it reports
`processed` = rows updated and `failed` = requested length minus
`processed` (which equals the number of ids not updated only when the list
has no duplicate of an existing id). -/
theorem claim_C7_amended (ids : List Nat) (b : Bool) (s : Sys) (hne : ids ≠ []) :
    (set_observations_excluded ids b s).2 =
      .ok ((s.db.observations.filter (fun o => ids.contains o.id)).length)
        (ids.length - (s.db.observations.filter (fun o => ids.contains o.id)).length) ∧
    (∀ o2 ∈ (set_observations_excluded ids b s).1.db.observations, o2.id ∈ ids →
        o2.excluded = some b) ∧
    ((set_observations_excluded ids b s).1.db.observations.filter
        (fun o => !(ids.contains o.id))) =
      (s.db.observations.filter (fun o => !(ids.contains o.id))) :=
  ⟨exclMany_resp ids b s hne,
   fun o2 hmem hid => (exclMany_mem_updated ids b s o2 hmem hid).1,
   exclMany_preserves_others ids b s hne⟩

/-- Witness for C7 (amended): one existing and one missing id — the
existing row is updated, the response reports one success and one
failure. -/
theorem claim_C7_amended_witness :
    (set_observations_excluded [5, 9] true
        ⟨⟨[1], [⟨5, 1, "d", "n", "u", 0, some false, [], none⟩], [], [], 6⟩, [], 0⟩).2 =
      BatchResp.ok 1 1 :=
  ((claim_C7_amended [5, 9] true
      ⟨⟨[1], [⟨5, 1, "d", "n", "u", 0, some false, [], none⟩], [], [], 6⟩, [], 0⟩
      (by decide)).1).trans (by decide)

/-- Ceiling-by-division bounds for the `(total + per_page - 1) // per_page`
page count. -/
theorem ceilDiv_bounds (L P : Nat) (hP : 0 < P) (hL : 0 < L) :
    L ≤ ((L + P - 1) / P) * P ∧ ((L + P - 1) / P) * P < L + P := by
  have key : ∀ A r : Nat, A + r = L + P - 1 → r < P → L ≤ A ∧ A < L + P := by
    intro A r h1 h2
    omega
  have h := key (P * ((L + P - 1) / P)) ((L + P - 1) % P)
    (Nat.div_add_mod _ _) (Nat.mod_lt _ hP)
  exact ⟨by rw [Nat.mul_comm]; exact h.1, by rw [Nat.mul_comm]; exact h.2⟩

/-- Counterexample to C3 as stated: a project with one observation queried
at page 2 — the empty result page makes the handler report `total = 0`
although one observation matches the project filter. -/
theorem claim_C3_counterexample :
    (get_observations ⟨[1], [⟨5, 1, "d", "n", "u", 0, some false, [], none⟩], [], [], 6⟩
        1 2 1000).total = 0 ∧
      (projObs ⟨[1], [⟨5, 1, "d", "n", "u", 0, some false, [], none⟩], [], [], 6⟩ 1).length = 1 := by
  decide

/-- C3 (amended): whenever the requested page actually contains rows
(`(page-1)*per_page < total`), `get_observations` reports a total equal to
the count of observations matching the project filter — computed by the
same query via a window function, not a separate racing count — and a page
count equal to `ceil(total / per_page)`; for a page beyond the data it
reports `total = 0` and `pages = 0`. -/
theorem claim_C3_amended (db : DB) (pid : Nat) (page perPage : Nat)
    (hpage : 1 ≤ page) (hper : 0 < perPage) :
    ((page - 1) * perPage < (projObs db pid).length →
      (get_observations db pid page perPage).total = (projObs db pid).length ∧
      (get_observations db pid page perPage).pages =
        ((projObs db pid).length + perPage - 1) / perPage ∧
      (projObs db pid).length ≤ (get_observations db pid page perPage).pages * perPage ∧
      (get_observations db pid page perPage).pages * perPage <
        (projObs db pid).length + perPage) ∧
    ((projObs db pid).length ≤ (page - 1) * perPage →
      (get_observations db pid page perPage).total = 0 ∧
      (get_observations db pid page perPage).pages = 0) := by
  constructor
  · intro hlt
    have hdrop : ((projObs db pid).drop ((page - 1) * perPage)) ≠ [] := by
      rw [Ne, List.drop_eq_nil_iff]
      omega
    have hrows : (((projObs db pid).drop ((page - 1) * perPage)).take perPage).isEmpty = false := by
      rw [Bool.eq_false_iff, Ne, List.isEmpty_iff, List.take_eq_nil_iff]
      rintro (h | h)
      · omega
      · exact hdrop h
    unfold get_observations
    simp only [hrows, Bool.false_eq_true, if_false, and_true, true_and, and_self,
      eq_self_iff_true]
    have hL : 0 < (projObs db pid).length := by omega
    exact ceilDiv_bounds (projObs db pid).length perPage hper hL
  · intro hge
    have hrows : (((projObs db pid).drop ((page - 1) * perPage)).take perPage).isEmpty = true := by
      rw [List.isEmpty_iff, List.take_eq_nil_iff]
      right
      rw [List.drop_eq_nil_iff]
      exact hge
    unfold get_observations
    simp only [hrows, if_true]
    exact ⟨trivial, trivial⟩

/-- Witness for C3 (amended): one observation, page 1 of size 1000 — total
1 and one page; page 2 reports zero. -/
theorem claim_C3_amended_witness :
    (get_observations ⟨[1], [⟨5, 1, "d", "n", "u", 0, some false, [], none⟩], [], [], 6⟩
        1 1 1000).total = 1 ∧
    (get_observations ⟨[1], [⟨5, 1, "d", "n", "u", 0, some false, [], none⟩], [], [], 6⟩
        1 2 1000).total = 0 := by
  have h1 := (claim_C3_amended
    ⟨[1], [⟨5, 1, "d", "n", "u", 0, some false, [], none⟩], [], [], 6⟩ 1 1 1000
    (by decide) (by decide)).1 (by decide)
  have h2 := (claim_C3_amended
    ⟨[1], [⟨5, 1, "d", "n", "u", 0, some false, [], none⟩], [], [], 6⟩ 1 2 1000
    (by decide) (by decide)).2 (by decide)
  exact ⟨h1.1.trans (by decide), h2.1⟩

/-- Counterexample to C2 as stated: over the values `"3"`,
`"not-a-number"`, `"7"` and one absent value, `get_dataset_stats` does not
return `{min 3, max 7, sum 10, average 5, count 2}` — the SQL cast raises
on the non-numeric string and the whole endpoint answers with an error
response. -/
theorem claim_C2_counterexample :
    (get_dataset_stats 1 ⟨⟨[1],
        [⟨1, 1, "d", "n", "u", 0, some false, [(icPath, PValue.str "3")], none⟩,
         ⟨2, 1, "d", "n", "u", 0, some false, [(icPath, PValue.str "not-a-number")], none⟩,
         ⟨3, 1, "d", "n", "u", 0, some false, [(icPath, PValue.str "7")], none⟩,
         ⟨4, 1, "d", "n", "u", 0, some false, [], none⟩], [], [], 10⟩, [], 0⟩).2 =
      StatsResp.err "invalid input syntax for type integer" := by
  decide

/-- C2 (amended): absent values are skipped and, provided every present
value parses as an integer, `individualCountStats` aggregates exactly the
parsed values (count, sum, exact average, least and greatest element), and
is null when no row has a value; when any present value fails to parse as
an integer the aggregate query raises and `get_dataset_stats` returns an
error response instead of skipping that value. -/
theorem claim_C2_amended :
    (∀ vs : List (Option String),
        (vs.filterMap id).all (fun v => (pgParseInt? v).isSome) = true →
        (vs.filterMap id).filterMap pgParseInt? = [] → icStats vs = .ok none) ∧
    (∀ (vs : List (Option String)) (x : Int) (xs : List Int),
        (vs.filterMap id).all (fun v => (pgParseInt? v).isSome) = true →
        (vs.filterMap id).filterMap pgParseInt? = x :: xs →
        ∃ st : ICStats, icStats vs = .ok (some st) ∧
          st.count = (x :: xs).length ∧
          st.sum = (x :: xs).sum ∧
          st.average = Rat.divInt st.sum (st.count : Int) ∧
          st.min ∈ x :: xs ∧ (∀ y ∈ x :: xs, st.min ≤ y) ∧
          st.max ∈ x :: xs ∧ (∀ y ∈ x :: xs, y ≤ st.max)) ∧
    (∀ vs : List (Option String),
        (vs.filterMap id).any (fun v => (pgParseInt? v).isNone) = true →
        icStats vs = .error "invalid input syntax for type integer") ∧
    (∀ (s : Sys) (pid : Nat) (e : String),
        (cacheGet s.cache s.now (statsKey pid)).2 = none →
        s.db.projects.contains pid = true →
        (projObs s.db pid).length ≠ 0 →
        icStats ((projObs s.db pid).map (fun o => pvText (propLookup o.properties icPath))) =
          .error e →
        (get_dataset_stats pid s).2 = .err e) ∧
    (∀ (s : Sys) (pid : Nat) (ics : Option ICStats),
        (cacheGet s.cache s.now (statsKey pid)).2 = none →
        s.db.projects.contains pid = true →
        (projObs s.db pid).length ≠ 0 →
        icStats ((projObs s.db pid).map (fun o => pvText (propLookup o.properties icPath))) =
          .ok ics →
        ∃ r : StatsResult, (get_dataset_stats pid s).2 = .ok r ∧
          r.individualCountStats = ics) := by
  have hcond : ∀ vs : List (Option String),
      (vs.filterMap id).all (fun v => (pgParseInt? v).isSome) = true →
      (vs.filterMap id).any (fun v => (pgParseInt? v).isNone) = false := by
    intro vs hall
    rw [List.any_eq_false]
    intro v hv
    have hsome := (List.all_eq_true.mp hall) v hv
    cases hpv : pgParseInt? v with
    | none =>
      rw [hpv] at hsome
      simp at hsome
    | some n => simp
  refine ⟨?_, ?_, ?_, ?_, ?_⟩
  · intro vs hall hnil
    simp only [icStats, hcond vs hall, Bool.false_eq_true, if_false, hnil]
  · intro vs x xs hall hx
    simp only [icStats, hcond vs hall, Bool.false_eq_true, if_false, hx]
    refine ⟨_, rfl, rfl, ?_, rfl, foldl_min_mem xs x, foldl_min_le xs x,
      foldl_max_mem xs x, foldl_max_ge xs x⟩
    simp [foldl_add_int]
  · intro vs hany
    simp only [icStats, hany, if_true]
  · intro s pid e hmiss hproj hnz hic
    unfold get_dataset_stats
    dsimp only
    rw [hmiss]
    rw [if_pos hproj, if_neg (by simp [hnz]), hic]
  · intro s pid ics hmiss hproj hnz hic
    unfold get_dataset_stats
    dsimp only
    rw [hmiss]
    rw [if_pos hproj, if_neg (by simp [hnz]), hic]
    exact ⟨_, rfl, rfl⟩

/-- Witness for C2 (amended): a null-only column yields a null aggregate,
a non-parsing value yields the cast error, and the spec's parseable values
aggregate to the expected summary. -/
theorem claim_C2_amended_witness :
    icStats [none] = .ok none ∧
      icStats [some "x"] = .error "invalid input syntax for type integer" ∧
      icStats [some "3", some "7", none] =
        .ok (some { min := 3, max := 7, sum := 10, average := 5, count := 2 }) :=
  ⟨claim_C2_amended.1 [none] (by decide) (by decide),
   claim_C2_amended.2.2.1 [some "x"] (by decide),
   by decide⟩

/-- C6: `save_observations` inserts in chunks of fixed size 1000 committed
independently: when the conversion of chunk `k` raises after the first `k`
chunks (1000·k features) were committed, exactly those `k` chunks remain
persisted — appended to the table with consecutive serial ids — and the
endpoint reports the error; the batch is not rolled back as a whole. -/
theorem claim_C6 (parse : String → Except String String) (ctx : InsertCtx)
    (features : List Feature) (s : Sys) (k : Nat) (rows : List Obs) (e : String)
    (hproj : s.db.projects.contains ctx.project_id = true)
    (hlt : chunkSize * k < features.length)
    (hok : convFeatures parse ctx (features.take (chunkSize * k)) = .ok rows)
    (hbad : convFeatures parse ctx ((features.drop (chunkSize * k)).take chunkSize) =
      .error e) :
    (save_observations parse ctx features s).1.db.observations =
        s.db.observations ++ assignIds s.db.nextId rows ∧
      (save_observations parse ctx features s).2 = .err e ∧
      rows.length = chunkSize * k := by
  have hlen : rows.length = chunkSize * k := by
    have h := convFeatures_length parse ctx _ _ hok
    rw [List.length_take] at h
    omega
  have hfail := saveChunksAux_fail parse ctx features.length k features s.db rows e
    le_rfl hlt hok hbad
  have hne : features.isEmpty = false := by
    cases features
    · simp at hlt
    · rfl
  unfold save_observations
  rw [if_neg (by simp [hne]), if_pos hproj]
  unfold saveChunks
  rw [hfail]
  exact ⟨rfl, rfl, hlen⟩

/-- Witness for C6: a single malformed feature makes the first chunk fail
with zero chunks committed, leaving the table exactly as before. -/
theorem claim_C6_witness :
    (save_observations (fun _ => Except.error "bad geometry") ⟨1, "d", "n", "", 0⟩
        [⟨some "G", []⟩] ⟨⟨[1], [], [], [], 0⟩, [], 0⟩).1.db.observations =
        ([] : List Obs) ++ assignIds 0 [] ∧
      (save_observations (fun _ => Except.error "bad geometry") ⟨1, "d", "n", "", 0⟩
        [⟨some "G", []⟩] ⟨⟨[1], [], [], [], 0⟩, [], 0⟩).2 = SaveResp.err "bad geometry" ∧
      ([] : List Obs).length = chunkSize * 0 :=
  claim_C6 (fun _ => Except.error "bad geometry") ⟨1, "d", "n", "", 0⟩ [⟨some "G", []⟩]
    ⟨⟨[1], [], [], [], 0⟩, [], 0⟩ 0 [] "bad geometry" (by decide) (by decide) (by decide)
    (by decide)

/-- Counterexample to C1 as stated: the exclusion toggles never call the
cache delete — after `set_observation_excluded` (or the batch form) the
entry under `stats:<project_id>` is still present, and the next
`get_dataset_stats` serves exactly the summary cached before the
mutation. -/
theorem claim_C1_counterexample :
    cacheHasKey (set_observation_excluded 5 true
        ⟨⟨[1], [⟨5, 1, "d", "n", "u", 0, some false, [], none⟩], [], [], 6⟩,
          [⟨statsKey 1, ⟨1, 1, 0, none⟩, 0⟩], 0⟩).1.cache (statsKey 1) = true ∧
      cacheHasKey (set_observations_excluded [5] true
        ⟨⟨[1], [⟨5, 1, "d", "n", "u", 0, some false, [], none⟩], [], [], 6⟩,
          [⟨statsKey 1, ⟨1, 1, 0, none⟩, 0⟩], 0⟩).1.cache (statsKey 1) = true ∧
      (get_dataset_stats 1 (set_observation_excluded 5 true
        ⟨⟨[1], [⟨5, 1, "d", "n", "u", 0, some false, [], none⟩], [], [], 6⟩,
          [⟨statsKey 1, ⟨1, 1, 0, none⟩, 0⟩], 0⟩).1).2 = StatsResp.ok ⟨1, 1, 0, none⟩ := by
  decide

/-- C1 (amended): the batch-insert and deletion operations delete the cache
key `stats:<project_id>` of the affected project on their success paths
(`delete_dataset_from_project` unconditionally), so a later
`get_dataset_stats` recomputes; the two exclusion toggles leave the cache
untouched. -/
theorem claim_C1_amended :
    (∀ (parse : String → Except String String) (ctx : InsertCtx) (features : List Feature)
        (s : Sys) (n : Nat),
        (save_observations parse ctx features s).2 = .ok n →
        cacheHasKey (save_observations parse ctx features s).1.cache
          (statsKey ctx.project_id) = false) ∧
    (∀ (parse : String → Except String String) (ctx : InsertCtx) (features : List Feature)
        (s : Sys) (n : Nat),
        (upload_csv_to_project parse ctx features s).2 = .ok n →
        cacheHasKey (upload_csv_to_project parse ctx features s).1.cache
          (statsKey ctx.project_id) = false) ∧
    (∀ (pid : Nat) (s : Sys), s.db.projects.contains pid = true →
        cacheHasKey (delete_project pid s).1.cache (statsKey pid) = false) ∧
    (∀ (pid : Nat) (did : String) (s : Sys),
        cacheHasKey (delete_dataset_from_project pid did s).1.cache (statsKey pid) = false) ∧
    (∀ (oid : Nat) (b : Bool) (s : Sys),
        (set_observation_excluded oid b s).1.cache = s.cache) ∧
    (∀ (ids : List Nat) (b : Bool) (s : Sys),
        (set_observations_excluded ids b s).1.cache = s.cache) := by
  refine ⟨?_, ?_, ?_, ?_, ?_, ?_⟩
  · intro parse ctx features s n h
    unfold save_observations at h ⊢
    by_cases h1 : features.isEmpty = true
    · rw [if_pos h1] at h
      exact absurd h (by simp)
    · rw [if_neg h1] at h ⊢
      by_cases h2 : s.db.projects.contains ctx.project_id = true
      · rw [if_pos h2] at h ⊢
        cases hsc : saveChunks parse ctx features s.db with
        | mk db2 opt =>
          rw [hsc] at h
          cases opt with
          | none => exact cacheDelete_hasKey_self s.cache (statsKey ctx.project_id)
          | some e => exact SaveResp.noConfusion h
      · rw [if_neg h2] at h
        exact absurd h (by simp)
  · intro parse ctx features s n h
    unfold upload_csv_to_project at h ⊢
    by_cases h1 : features.isEmpty = true
    · rw [if_pos h1] at h
      exact absurd h (by simp)
    · rw [if_neg h1] at h ⊢
      by_cases h2 : s.db.projects.contains ctx.project_id = true
      · rw [if_pos h2] at h ⊢
        cases hc : convFeatures parse ctx features with
        | error e =>
          rw [hc] at h
          exact SaveResp.noConfusion h
        | ok rows => exact cacheDelete_hasKey_self s.cache (statsKey ctx.project_id)
      · rw [if_neg h2] at h
        exact absurd h (by simp)
  · intro pid s hproj
    unfold delete_project
    rw [if_pos hproj]
    exact cacheDelete_hasKey_self s.cache (statsKey pid)
  · intro pid did s
    unfold delete_dataset_from_project
    exact cacheDelete_hasKey_self s.cache (statsKey pid)
  · intro oid b s
    unfold set_observation_excluded
    by_cases h1 : s.db.observations.any (fun o => o.id == oid) = true
    · rw [if_pos h1]
    · rw [if_neg h1]
  · intro ids b s
    unfold set_observations_excluded
    by_cases h1 : ids.isEmpty = true
    · rw [if_pos h1]
    · rw [if_neg h1]

/-- Witness for C1 (amended): against a state whose cache holds the
project's entry, a successful batch insert, CSV insert, project deletion
and dataset deletion all remove the key, while both exclusion toggles
leave the cache as it was. -/
theorem claim_C1_amended_witness :
    cacheHasKey (save_observations (fun _ => Except.ok "w") ⟨1, "d", "n", "", 0⟩
        [⟨none, []⟩] ⟨⟨[1], [], [], [], 0⟩, [⟨statsKey 1, ⟨1, 1, 0, none⟩, 0⟩], 0⟩).1.cache
        (statsKey 1) = false ∧
      cacheHasKey (upload_csv_to_project (fun _ => Except.ok "w") ⟨1, "d", "n", "", 0⟩
        [⟨none, []⟩] ⟨⟨[1], [], [], [], 0⟩, [⟨statsKey 1, ⟨1, 1, 0, none⟩, 0⟩], 0⟩).1.cache
        (statsKey 1) = false ∧
      cacheHasKey (delete_project 1
        ⟨⟨[1], [], [], [], 0⟩, [⟨statsKey 1, ⟨1, 1, 0, none⟩, 0⟩], 0⟩).1.cache
        (statsKey 1) = false ∧
      cacheHasKey (delete_dataset_from_project 1 "d"
        ⟨⟨[1], [], [], [], 0⟩, [⟨statsKey 1, ⟨1, 1, 0, none⟩, 0⟩], 0⟩).1.cache
        (statsKey 1) = false ∧
      (set_observation_excluded 5 true
        ⟨⟨[1], [], [], [], 0⟩, [⟨statsKey 1, ⟨1, 1, 0, none⟩, 0⟩], 0⟩).1.cache =
        [⟨statsKey 1, ⟨1, 1, 0, none⟩, 0⟩] ∧
      (set_observations_excluded [5] true
        ⟨⟨[1], [], [], [], 0⟩, [⟨statsKey 1, ⟨1, 1, 0, none⟩, 0⟩], 0⟩).1.cache =
        [⟨statsKey 1, ⟨1, 1, 0, none⟩, 0⟩] :=
  ⟨claim_C1_amended.1 (fun _ => Except.ok "w") ⟨1, "d", "n", "", 0⟩ [⟨none, []⟩]
      ⟨⟨[1], [], [], [], 0⟩, [⟨statsKey 1, ⟨1, 1, 0, none⟩, 0⟩], 0⟩ 1 (by decide),
    claim_C1_amended.2.1 (fun _ => Except.ok "w") ⟨1, "d", "n", "", 0⟩ [⟨none, []⟩]
      ⟨⟨[1], [], [], [], 0⟩, [⟨statsKey 1, ⟨1, 1, 0, none⟩, 0⟩], 0⟩ 1 (by decide),
    claim_C1_amended.2.2.1 1
      ⟨⟨[1], [], [], [], 0⟩, [⟨statsKey 1, ⟨1, 1, 0, none⟩, 0⟩], 0⟩ (by decide),
    claim_C1_amended.2.2.2.1 1 "d"
      ⟨⟨[1], [], [], [], 0⟩, [⟨statsKey 1, ⟨1, 1, 0, none⟩, 0⟩], 0⟩,
    claim_C1_amended.2.2.2.2.1 5 true
      ⟨⟨[1], [], [], [], 0⟩, [⟨statsKey 1, ⟨1, 1, 0, none⟩, 0⟩], 0⟩,
    claim_C1_amended.2.2.2.2.2 [5] true
      ⟨⟨[1], [], [], [], 0⟩, [⟨statsKey 1, ⟨1, 1, 0, none⟩, 0⟩], 0⟩⟩
